import Mathlib

/-!
# Verification of the incremental ingestion / vector-search core

A shallow embedding, in Lean 4, of the `claude_reflections` Python package:

* `indexer.py` — JSONL parsing (`extract_text_content`, `parse_jsonl_line`,
  `iter_new_messages`);
* `search.py`  — the embedded vector store (`SqliteVecManager`: batching,
  snippet truncation, threshold filtering, stats, drop);
* `state.py`   — per-project progress tracking (`StateManager`).

Python strings are modelled as `List Char` (the log files exercised here are
ASCII, on which the byte/code-point distinction and the `errors="replace"`
decode are the identity).  A Python file object opened in binary mode is
modelled by the file contents together with an explicit cursor position;
`readline`/`tell`/`seek` become arithmetic on that position.  The external
`json.loads` capability is modelled by an executable recursive-descent JSON
reader over the same character lists (restricted to integer numerals and to
the basic string escapes, which covers every record shape the source and its
tests exercise).  Python expressions that raise (`AttributeError` on `.get`
of a non-dict, `TypeError` in `"\n".join` / iteration) are modelled with
`Except`.
-/

set_option autoImplicit false
set_option maxRecDepth 40000

namespace ClaudeReflections

/-- A Python string: a finite sequence of code points. -/
abbrev Str := List Char

/-- Convenience: the character list of a Lean string literal. -/
def str2l (s : String) : Str := s.data

/-- The JSON value universe produced by `json.loads` (numerals restricted to
integers; every payload the repository manipulates is covered). -/
inductive JValue where
  | null : JValue
  | bool (b : Bool) : JValue
  | num (n : Int) : JValue
  | str (s : Str) : JValue
  | arr (elems : List JValue) : JValue
  | obj (fields : List (Str × JValue)) : JValue

/-- Lookup in a Python dict built from a key/value list: the *last* binding
of a key wins, exactly as repeated JSON keys overwrite in `dict`. -/
def dictGet (fields : List (Str × JValue)) (k : Str) : Option JValue :=
  fields.foldl (fun acc kv => if kv.1 = k then some kv.2 else acc) none

/-- `dict.get(k, default)`. -/
def dictGetD (fields : List (Str × JValue)) (k : Str) (d : JValue) : JValue :=
  (dictGet fields k).getD d

/-- `data.get(k, default)` on an arbitrary Python value: raises
`AttributeError` unless the value is a dict. -/
def pyGet (v : JValue) (k : Str) (d : JValue) : Except Str JValue :=
  match v with
  | .obj fields => .ok (dictGetD fields k d)
  | _ => .error (str2l "AttributeError")

/-- Python `str.strip()` (ASCII whitespace: the inputs modelled are ASCII). -/
def pyStrip (s : Str) : Str :=
  ((s.dropWhile Char.isWhitespace).reverse.dropWhile Char.isWhitespace).reverse

/-- JSON insignificant whitespace. -/
def jsonWs (c : Char) : Bool :=
  c = ' ' || c = '\t' || c = '\n' || c = '\r'

/-- Skip JSON whitespace. -/
def skipWs (s : Str) : Str := s.dropWhile jsonWs

/-- Parse the body of a JSON string literal (after the opening quote),
returning the decoded characters and the remainder after the closing quote.
Handles the single-character escapes; `\uXXXX` is outside the modelled
subset (no input here uses it). -/
def parseStrBody : Str → Option (Str × Str)
  | [] => none
  | '\"' :: rest => some ([], rest)
  | '\\' :: c :: rest =>
    let esc : Option Char :=
      if c = 'n' then some '\n'
      else if c = 't' then some '\t'
      else if c = 'r' then some '\r'
      else if c = 'b' then some (Char.ofNat 8)
      else if c = 'f' then some (Char.ofNat 12)
      else if c = '\"' then some '\"'
      else if c = '\\' then some '\\'
      else if c = '/' then some '/'
      else none
    match esc with
    | none => none
    | some e =>
      match parseStrBody rest with
      | some (tail, rem) => some (e :: tail, rem)
      | none => none
  | c :: rest =>
    match parseStrBody rest with
    | some (tail, rem) => some (c :: tail, rem)
    | none => none

/-- Digits of a decimal numeral. -/
def digitsVal (s : Str) : Nat :=
  s.foldl (fun acc c => acc * 10 + (c.toNat - '0'.toNat)) 0

/-- Parse a JSON integer numeral. -/
def parseNum (s : Str) : Option (JValue × Str) :=
  let (neg, s') := match s with
    | '-' :: t => (true, t)
    | _ => (false, s)
  let digits := s'.takeWhile Char.isDigit
  let rest := s'.dropWhile Char.isDigit
  if digits = [] then none
  else
    let n : Int := Int.ofNat (digitsVal digits)
    some (.num (if neg then -n else n), rest)

/-- Parse the members of a JSON object after the opening brace; `pv` parses
one value.  `fuel` bounds the number of members. -/
def parseMembersAux (pv : Str → Option (JValue × Str)) :
    Nat → Str → Option (List (Str × JValue) × Str)
  | 0, _ => none
  | fuel + 1, s =>
    match skipWs s with
    | '\"' :: rest =>
      match parseStrBody rest with
      | none => none
      | some (key, rest1) =>
        match skipWs rest1 with
        | ':' :: rest2 =>
          match pv rest2 with
          | none => none
          | some (v, rest3) =>
            match skipWs rest3 with
            | ',' :: rest4 =>
              match parseMembersAux pv fuel rest4 with
              | some (more, rem) => some ((key, v) :: more, rem)
              | none => none
            | c :: rest4 =>
              if c = Char.ofNat 125 then some ([(key, v)], rest4) else none
            | [] => none
        | _ => none
    | _ => none

/-- Parse the elements of a JSON array after the opening bracket; `pv`
parses one value. -/
def parseElemsAux (pv : Str → Option (JValue × Str)) :
    Nat → Str → Option (List JValue × Str)
  | 0, _ => none
  | fuel + 1, s =>
    match pv s with
    | none => none
    | some (v, rest) =>
      match skipWs rest with
      | ',' :: rest1 =>
        match parseElemsAux pv fuel rest1 with
        | some (more, rem) => some (v :: more, rem)
        | none => none
      | ']' :: rest1 => some ([v], rest1)
      | _ => none

/-- Check that `s` starts with `pre` and return the remainder. -/
def expectLit : Str → Str → Option Str
  | [], s => some s
  | c :: pre, d :: s => if c = d then expectLit pre s else none
  | _ :: _, [] => none

/-- Parse one JSON value.  `fuel` bounds the nesting depth; recursion is
structural on `fuel` so that concrete runs reduce inside the kernel. -/
def parseVal : Nat → Str → Option (JValue × Str)
  | 0, _ => none
  | fuel + 1, s₀ =>
    match skipWs s₀ with
    | [] => none
    | c :: rest =>
      if c = Char.ofNat 123 then
        match skipWs rest with
        | d :: rest1 =>
          if d = Char.ofNat 125 then some (.obj [], rest1)
          else
            match parseMembersAux (parseVal fuel) (rest.length + 1) rest with
            | some (fields, rem) => some (.obj fields, rem)
            | none => none
        | [] => none
      else if c = '[' then
        match skipWs rest with
        | ']' :: rest1 => some (.arr [], rest1)
        | _ =>
          match parseElemsAux (parseVal fuel) (rest.length + 1) rest with
          | some (elems, rem) => some (.arr elems, rem)
          | none => none
      else if c = '\"' then
        match parseStrBody rest with
        | some (body, rem) => some (.str body, rem)
        | none => none
      else if c = 't' then
        match expectLit (str2l "rue") rest with
        | some rem => some (.bool true, rem)
        | none => none
      else if c = 'f' then
        match expectLit (str2l "alse") rest with
        | some rem => some (.bool false, rem)
        | none => none
      else if c = 'n' then
        match expectLit (str2l "ull") rest with
        | some rem => some (.null, rem)
        | none => none
      else
        parseNum (c :: rest)

/-- The external `json.loads` capability: parse a whole document, demanding
that nothing but whitespace follows the value. -/
def json_loads (s : Str) : Option JValue :=
  match parseVal (s.length + 1) s with
  | some (v, rest) => if skipWs rest = [] then some v else none
  | none => none

/-! ## `indexer.py` — record extraction -/

/-- `IndexableMessage` (indexer.py).  The metadata fields (`uuid`,
`timestamp`, `sessionId`) are read with `data.get(key, "")`; they are
modelled by their string payload (a non-string value in one of these
metadata slots — which no claim exercises — is modelled as the default
empty string). -/
structure Msg where
  uuid : Str
  role : Str
  content : Str
  timestamp : Str
  session_id : Str
  file_path : Str
  line_number : Nat
  byte_offset : Nat
  deriving DecidableEq

/-- String payload of a metadata field fetched with `data.get(key, "")`. -/
def jvalToStrField : JValue → Str
  | .str s => s
  | _ => []

/-- The text contribution of one block of an assistant message: only dict
blocks whose `type` equals `"text"` contribute, yielding `block.get("text",
"")` (a `JValue`, checked to be a string only at join time, as in Python). -/
def blockTextPart : JValue → Option JValue
  | .obj fields =>
    (match dictGet fields (str2l "type") with
     | some (.str t) =>
       if t = str2l "text" then some (dictGetD fields (str2l "text") (.str [])) else none
     | _ => none)
  | _ => none

/-- Is a JSON value a string? -/
def isStrVal : JValue → Bool
  | .str _ => true
  | _ => false

/-- String payload (meaningful on `.str` values). -/
def strPayload : JValue → Str
  | .str s => s
  | _ => []

/-- `"\n".join(parts)`: raises `TypeError` unless every part is a string. -/
def joinParts (parts : List JValue) : Except Str Str :=
  if parts.all isStrVal then
    .ok (List.intercalate (str2l "\n") (parts.map strPayload))
  else
    .error (str2l "TypeError")

/-- `extract_text_content` (indexer.py).  A plain string is returned
verbatim; a list keeps exactly the `text` blocks; iterating a dict yields
its keys (plain strings, so no block qualifies and the result is empty);
any other value is not iterable and raises `TypeError`. -/
def extract_text_content : JValue → Except Str Str
  | .str s => .ok s
  | .arr blocks => joinParts (blocks.filterMap blockTextPart)
  | .obj _ => joinParts []
  | _ => .error (str2l "TypeError")

/-- Is the declared record type exactly `"user"` or `"assistant"`?  (Python
`msg_type in ("user", "assistant")`: a non-string compares unequal.) -/
def isUserOrAssistant : JValue → Bool
  | .str s => s = str2l "user" || s = str2l "assistant"
  | _ => false

/-- `parse_jsonl_line` (indexer.py): strip, reject empty lines and invalid
JSON, then keep only records whose `type` is `user`/`assistant`.  The
`data.get("type", "")` call raises `AttributeError` when the parsed value is
not a dict. -/
def parse_jsonl_line (line : Str) : Except Str (Option JValue) :=
  let line := pyStrip line
  if line = [] then .ok none
  else
    match json_loads line with
    | none => .ok none
    | some data =>
      match pyGet data (str2l "type") (.str []) with
      | .error e => .error e
      | .ok t => if isUserOrAssistant t then .ok (some data) else .ok none

/-- The `IndexableMessage` built in the loop body from a parsed record
`data` (a dict, guaranteed by `parse_jsonl_line`) and the extracted text:
`uuid=data.get("uuid","")`, `role=msg_type`, `timestamp=...`,
`sessionId=...`.  Positional fields are filled in by the caller. -/
def mkPreMsg (fields : List (Str × JValue)) (content : Str) : Msg :=
  { uuid := jvalToStrField (dictGetD fields (str2l "uuid") (.str []))
    role := jvalToStrField (dictGetD fields (str2l "type") (.str []))
    content := content
    timestamp := jvalToStrField (dictGetD fields (str2l "timestamp") (.str []))
    session_id := jvalToStrField (dictGetD fields (str2l "sessionId") (.str []))
    file_path := []
    line_number := 0
    byte_offset := 0 }

/-- The extractor pipeline applied to one raw line, as in the body of the
`iter_new_messages` loop: parse, fetch `message = data.get("message", {})`
and `content_raw = message.get("content", "")` (raising when `message` is
not a dict), extract the text, and drop the record when the text strips to
empty.  `parse_jsonl_line` only ever returns a dict, so `data` is
destructured as one (a non-dict would raise `AttributeError` just as the
source's `data.get` would). -/
def processLine (line : Str) : Except Str (Option Msg) :=
  match parse_jsonl_line line with
  | .error e => .error e
  | .ok none => .ok none
  | .ok (some (.obj fields)) =>
    (match pyGet (dictGetD fields (str2l "message") (.obj [])) (str2l "content") (.str []) with
     | .error e => .error e
     | .ok content_raw =>
       match extract_text_content content_raw with
       | .error e => .error e
       | .ok content =>
         if pyStrip content = [] then .ok none
         else .ok (some (mkPreMsg fields content)))
  | .ok (some _) => .error (str2l "AttributeError")

/-! ## `indexer.py` — the byte-offset file mechanics of `iter_new_messages`

A binary-mode Python file object is the pair of the (immutable) file
contents and a cursor.  `f.readline()` from position `p` consumes up to and
including the next `'\n'` (or to end of file); `f.tell()` is the cursor. -/

/-- The cursor position after `f.readline()` issued at position `p`. -/
def lineEnd (file : Str) (p : Nat) : Nat :=
  match (file.drop p).findIdx? (· = '\n') with
  | some i => p + i + 1
  | none => file.length

/-- The characters returned by `f.readline()` issued at position `p`. -/
def lineAt (file : Str) (p : Nat) : Str :=
  (file.drop p).take (lineEnd file p - p)

/-- The line-counting loop of `iter_new_messages`:
`for _ in f: line_number += 1; if f.tell() >= start_offset: break`,
started from position 0.  `fuel` dominates the number of lines. -/
def countLoop (file : Str) (start : Nat) : Nat → Nat → Nat → Nat
  | 0, _, ln => ln
  | fuel + 1, p, ln =>
    if file.length ≤ p then ln
    else
      let e := lineEnd file p
      if start ≤ e then ln + 1 else countLoop file start fuel e (ln + 1)

/-- The main read loop of `iter_new_messages`: record the offset, read a
line, stop at end of file, and yield the processed record (if any) with its
positional fields.  An exception raised while processing a line aborts the
whole iteration, as it does for a Python generator. -/
def scanLoop (path file : Str) : Nat → Nat → Nat → Except Str (List Msg)
  | 0, _, _ => .error (str2l "fuel")
  | fuel + 1, p, ln =>
    if file.length ≤ p then .ok []
    else
      let byte_offset := p
      let e := lineEnd file p
      let line := lineAt file p
      let ln' := ln + 1
      match processLine line with
      | .error err => .error err
      | .ok none => scanLoop path file fuel e ln'
      | .ok (some m) =>
        match scanLoop path file fuel e ln' with
        | .error err => .error err
        | .ok rest =>
          .ok ({ m with file_path := path, line_number := ln', byte_offset := byte_offset } :: rest)

/-- `iter_new_messages` (indexer.py), materialized to a list as its callers
do.  For `start_offset > 0` the source (a) seeks and discards one
`readline()` — an effect immediately superseded by the re-seek in the
line-counting block — then (b) counts lines from offset 0 until the cursor
reaches `start_offset`, and (c) re-seeks to `start_offset` and discards one
`readline()` before entering the main loop. -/
def iter_new_messages (path file : Str) (start_offset : Nat) : Except Str (List Msg) :=
  let line_number := if 0 < start_offset then countLoop file start_offset (file.length + 1) 0 0 else 0
  let p := if 0 < start_offset then lineEnd file start_offset else 0
  scanLoop path file (file.length + 1) p line_number

/-! ## `search.py` — the embedded vector store (`SqliteVecManager`)

The per-project database is modelled by the state of its single `vectors`
table: `none` when the table does not exist, `some rows` otherwise.  The
embedding backend (`fastembed`) is an external capability and is passed in
as a function; similarity arithmetic is carried out over `ℚ`.  The
`serialize_f32` packing is a representation detail and is modelled as the
identity (rows hold their vectors directly). -/

/-- One row of the `vectors` virtual table, payload columns included. -/
structure Row where
  embedding : List ℚ
  uuid : Str
  file_path : Str
  line_number : Nat
  role : Str
  snippet : Str
  timestamp : Str
  session_id : Str
  deriving DecidableEq

/-- The state of a per-project database: `none` iff the `vectors` table
does not exist. -/
abbrev SqliteStore := Option (List Row)

/-- `ensure_collection`: `CREATE VIRTUAL TABLE IF NOT EXISTS`. -/
def ensure_collection : SqliteStore → SqliteStore
  | none => some []
  | some rows => some rows

/-- `msg.content[:2000]`, the text handed to the embedding backend. -/
def embedText (content : Str) : Str := content.take 2000

/-- The stored display snippet: `msg.content[:300]`, with `"..."` appended
when the content is longer than 300 characters. -/
def truncSnippet (content : Str) : Str :=
  let snippet := content.take 300
  if 300 < content.length then snippet ++ str2l "..." else snippet

/-- The row inserted for one message/embedding pair. -/
def mkRow (m : Msg) (e : List ℚ) : Row :=
  { embedding := e
    uuid := m.uuid
    file_path := m.file_path
    line_number := m.line_number
    role := m.role
    snippet := truncSnippet m.content
    timestamp := m.timestamp
    session_id := m.session_id }

/-- `EmbeddingManager.embed_batch`: an empty input returns `[]` without
calling the model; otherwise the whole batch goes to the model in one
call (`modelEmbed`). -/
def embed_batch (modelEmbed : List Str → List (List ℚ)) (texts : List Str) : List (List ℚ) :=
  if texts = [] then [] else modelEmbed texts

/-- `index_messages` (search.py): 0 immediately on an empty list; otherwise
ensure the table, embed every truncated content in one batch, and insert
one row per message.  `zip(messages, embeddings, strict=True)` raises
`ValueError` when the lengths differ; otherwise the count of input
messages is returned. -/
def index_messages (modelEmbed : List Str → List (List ℚ)) (store : SqliteStore)
    (messages : List Msg) : Except Str (SqliteStore × Nat) :=
  if messages = [] then .ok (store, 0)
  else
    let store1 := ensure_collection store
    let texts := messages.map (fun m => embedText m.content)
    let embeddings := embed_batch modelEmbed texts
    if embeddings.length = messages.length then
      .ok (some ((store1.getD []) ++ List.zipWith mkRow messages embeddings), messages.length)
    else
      .error (str2l "ValueError")

/-- A search hit (`SearchResult` in search.py). -/
structure SearchResult where
  uuid : Str
  file_path : Str
  line_number : Nat
  role : Str
  snippet : Str
  score : ℚ
  timestamp : Str
  session_id : Str
  deriving DecidableEq

/-- The `SearchResult` built from a returned row and its similarity. -/
def mkResult (r : Row) (similarity : ℚ) : SearchResult :=
  { uuid := r.uuid
    file_path := r.file_path
    line_number := r.line_number
    role := r.role
    snippet := r.snippet
    score := similarity
    timestamp := r.timestamp
    session_id := r.session_id }

/-- `search` (search.py): empty when the table does not exist; otherwise
embed the query (`embed1`), let the backend (`knn`) return at most `limit`
candidates with their cosine distances, convert each distance `d` to the
similarity `1 - d`, and drop every candidate whose similarity is strictly
below `score_threshold`. -/
def search (embed1 : Str → List ℚ) (knn : List ℚ → List Row → Nat → List (ℚ × Row))
    (store : SqliteStore) (query : Str) (limit : Nat) (score_threshold : ℚ) :
    List SearchResult :=
  match store with
  | none => []
  | some rows =>
    (knn (embed1 query) rows limit).filterMap (fun dr =>
      if 1 - dr.1 < score_threshold then none else some (mkResult dr.2 (1 - dr.1)))

/-- `get_collection_stats` (search.py). -/
def get_collection_stats : SqliteStore → Nat × Str
  | none => (0, str2l "not_found")
  | some rows => (rows.length, str2l "ok")

/-- `drop_collection` (search.py): `DROP TABLE IF EXISTS`. -/
def drop_collection : SqliteStore → SqliteStore := fun _ => none

/-! ## `state.py` — per-project progress tracking (`StateManager`)

The state directory is modelled as an association from the sanitized
per-project directory name to that project's `ProjectState`; the JSON
(de)serialization of `state.json` (`to_dict`/`from_dict`, a faithful
round-trip) is elided.  Python `dict` insertion order is kept by updating
in place and appending fresh keys. -/

/-- `FileState` (state.py). -/
structure FileState where
  last_byte_offset : Nat
  indexed_count : Nat
  last_indexed : Str
  deriving DecidableEq

/-- `ProjectState` (state.py). -/
structure ProjectState where
  collection_name : Str
  files : List (Str × FileState)
  deriving DecidableEq

/-- Association-list lookup (Python `dict` access / `in`). -/
def assocGet {ν : Type} (l : List (Str × ν)) (k : Str) : Option ν :=
  match l with
  | [] => none
  | kv :: t => if kv.1 = k then some kv.2 else assocGet t k

/-- Association-list update: overwrite in place, append when fresh
(Python `dict` assignment). -/
def assocSet {ν : Type} (l : List (Str × ν)) (k : Str) (v : ν) : List (Str × ν) :=
  match l with
  | [] => [(k, v)]
  | kv :: t => if kv.1 = k then (k, v) :: t else kv :: assocSet t k v

/-- `project.replace("/", "-")` (single-character pattern). -/
def replSlashDash (project : Str) : Str :=
  project.map (fun c => if c = '/' then '-' else c)

/-- `_project_dir` (state.py): the sanitized directory name,
`project.replace("/", "-").lstrip("-")`. -/
def projectDirName (project : Str) : Str :=
  (replSlashDash project).dropWhile (· = '-')

/-- The collection name derived on first load (state.py `load`):
`"reflections_" + project.replace("/", "-").replace("-", "_").lstrip("_")`. -/
def collectionName (project : Str) : Str :=
  str2l "reflections_" ++
    (((replSlashDash project).map (fun c => if c = '-' then '_' else c)).dropWhile (· = '_'))

/-- The contents of the state directory: one `ProjectState` per sanitized
project directory holding a `state.json`. -/
abbrev StateDisk := List (Str × ProjectState)

/-- `StateManager.load`: the stored state when the project's `state.json`
exists, else a fresh default carrying the derived collection name. -/
def sm_load (disk : StateDisk) (project : Str) : ProjectState :=
  match assocGet disk (projectDirName project) with
  | some st => st
  | none => { collection_name := collectionName project, files := [] }

/-- `StateManager.save`. -/
def sm_save (disk : StateDisk) (project : Str) (st : ProjectState) : StateDisk :=
  assocSet disk (projectDirName project) st

/-- `StateManager.update_file_state`: read-modify-write of the whole
project state; the byte offset is overwritten, the running count is
incremented, and the timestamp (`datetime.now`, an external input passed
as `now`) is refreshed. -/
def update_file_state (disk : StateDisk) (project filename : Str)
    (byte_offset new_count : Nat) (now : Str) : StateDisk :=
  let state := sm_load disk project
  let fs := (assocGet state.files filename).getD
    { last_byte_offset := 0, indexed_count := 0, last_indexed := [] }
  let fs' := { fs with
    last_byte_offset := byte_offset
    indexed_count := fs.indexed_count + new_count
    last_indexed := now }
  sm_save disk project { state with files := assocSet state.files filename fs' }

/-- `StateManager.get_file_offset`: the tracked offset, or 0 when the file
has never been tracked. -/
def get_file_offset (disk : StateDisk) (project filename : Str) : Nat :=
  match assocGet (sm_load disk project).files filename with
  | some fs => fs.last_byte_offset
  | none => 0

/-- The stored running count for a file (the `indexed_count` field read off
the data model; 0 when the file has never been tracked). -/
def get_indexed_count (disk : StateDisk) (project filename : Str) : Nat :=
  match assocGet (sm_load disk project).files filename with
  | some fs => fs.indexed_count
  | none => 0

/-! ## The networked vector store (`QdrantManager`)

`cli.py` imports `QdrantManager` from `.search`, but `search.py` in this
tree only defines the embedded `SqliteVecManager`: the networked backend's
definition is missing from the sources.  Modelled from the spec: the
networked store exposes the same contract (`ensure_collection`, `index`,
`search`, `stats`, `drop`), converts cosine distance to `1 - distance`
similarity with the same strict threshold drop, reports backend-specific
status strings (`"green"` for a live collection, per the repository's e2e
test expectations), and — unlike the embedded store — deduplicates by
identifier: upserting an already-present `uuid` overwrites that point
instead of appending a new one. -/

/-- The state of a networked-store collection: `none` when absent. -/
abbrev QdrantStore := Option (List Row)

/-- Modelled from the spec: create-collection-if-absent. -/
def qdrant_ensure_collection : QdrantStore → QdrantStore
  | none => some []
  | some rows => some rows

/-- Modelled from the spec: upsert one point keyed by its identifier —
overwrite the point carrying the same `uuid`, append when fresh. -/
def upsertRow (rows : List Row) (r : Row) : List Row :=
  if rows.any (fun x => x.uuid = r.uuid) then
    rows.map (fun x => if x.uuid = r.uuid then r else x)
  else rows ++ [r]

/-- Modelled from the spec: `QdrantManager.index_messages` — same batching
and strict length contract as the embedded store, but each built point is
upserted by identifier. -/
def qdrant_index_messages (modelEmbed : List Str → List (List ℚ)) (store : QdrantStore)
    (messages : List Msg) : Except Str (QdrantStore × Nat) :=
  if messages = [] then .ok (store, 0)
  else
    let store1 := qdrant_ensure_collection store
    let texts := messages.map (fun m => embedText m.content)
    let embeddings := embed_batch modelEmbed texts
    if embeddings.length = messages.length then
      .ok (some ((List.zipWith mkRow messages embeddings).foldl upsertRow (store1.getD [])),
           messages.length)
    else
      .error (str2l "ValueError")

/-- Modelled from the spec: `QdrantManager.search` — empty on a missing
collection, else nearest-neighbour candidates capped at `limit`, similarity
`1 - distance`, strict drop below the threshold. -/
def qdrant_search (embed1 : Str → List ℚ) (knn : List ℚ → List Row → Nat → List (ℚ × Row))
    (store : QdrantStore) (query : Str) (limit : Nat) (score_threshold : ℚ) :
    List SearchResult :=
  match store with
  | none => []
  | some rows =>
    (knn (embed1 query) rows limit).filterMap (fun dr =>
      if 1 - dr.1 < score_threshold then none else some (mkResult dr.2 (1 - dr.1)))

/-- Modelled from the spec: `QdrantManager.get_collection_stats` — a point
count plus a backend-specific status string. -/
def qdrant_get_collection_stats : QdrantStore → Nat × Str
  | none => (0, str2l "not_found")
  | some rows => (rows.length, str2l "green")

/-- Modelled from the spec: delete-collection. -/
def qdrant_drop_collection : QdrantStore → QdrantStore := fun _ => none

/-! ## Decidable equality for `Except` results -/

/-- Decidable equality on `Except`, so concrete pipeline runs can be
settled by `decide`. -/
def exceptDecEq {ε α : Type _} [DecidableEq ε] [DecidableEq α] :
    (x y : Except ε α) → Decidable (x = y)
  | .error a, .error b =>
    if h : a = b then isTrue (by rw [h]) else isFalse (fun hc => by cases hc; exact h rfl)
  | .error _, .ok _ => isFalse (fun hc => by cases hc)
  | .ok _, .error _ => isFalse (fun hc => by cases hc)
  | .ok a, .ok b =>
    if h : a = b then isTrue (by rw [h]) else isFalse (fun hc => by cases hc; exact h rfl)

instance {ε α : Type _} [DecidableEq ε] [DecidableEq α] : DecidableEq (Except ε α) :=
  exceptDecEq

/-! ## The spec's reading of the extraction policy (claim side)

These definitions transcribe the specification's wording — "concatenate
(newline-joined, in original order) only the blocks whose type is `text`"
— to be compared against `extract_text_content` as embedded from the
source. -/

/-- Claim side: the text carried by a block *whose type is `text`*; other
blocks contribute nothing. -/
def specTextOf : JValue → Option Str
  | .obj fields =>
    (match dictGet fields (str2l "type") with
     | some (.str t) =>
       if t = str2l "text" then
         some (jvalToStrField (dictGetD fields (str2l "text") (.str [])))
       else none
     | _ => none)
  | _ => none

/-- Claim side: the newline-joined concatenation, in original order, of
exactly the blocks whose type is `text`. -/
def specJoinTextBlocks (blocks : List JValue) : Str :=
  List.intercalate (str2l "\n") (blocks.filterMap specTextOf)

/-- Claim side: the message body (`message.content`, defaulting exactly as
the record format does). -/
def specBodyOf (fields : List (Str × JValue)) : JValue :=
  match dictGetD fields (str2l "message") (.obj []) with
  | .obj ms => dictGetD ms (str2l "content") (.str [])
  | _ => .str []

/-- Claim side: the extracted text of a parsed record — the body verbatim
when it is a plain string, the joined text blocks when it is a list. -/
def specContentOfData (data : JValue) : Str :=
  match data with
  | .obj fields =>
    match specBodyOf fields with
    | .str s => s
    | .arr blocks => specJoinTextBlocks blocks
    | _ => []
  | _ => []

/-- Is the record's declared type exactly `user` or `assistant`? -/
def typeGoodB (data : JValue) : Bool :=
  match data with
  | .obj fields => isUserOrAssistant (dictGetD fields (str2l "type") (.str []))
  | _ => false

/-- Claim side: the skip condition — the line is not valid JSON, or its
declared type is not exactly `user`/`assistant`, or the extracted text is
empty or whitespace-only. -/
def skipCondB (line : Str) : Bool :=
  match json_loads (pyStrip line) with
  | none => true
  | some data =>
    if typeGoodB data then decide (pyStrip (specContentOfData data) = []) else true

/-- A content block is well shaped when, if it is a text-typed dict block,
its `text` field (when present) is a string. -/
def blockOkB : JValue → Bool
  | .obj fields =>
    (match dictGet fields (str2l "type") with
     | some (.str t) =>
       if t = str2l "text" then
         (match dictGet fields (str2l "text") with
          | none => true
          | some (.str _) => true
          | some _ => false)
       else true
     | _ => true)
  | _ => true

/-- A message body is well shaped when it is a plain string or a list of
well-shaped blocks. -/
def contentOkB : JValue → Bool
  | .str _ => true
  | .arr blocks => blocks.all blockOkB
  | _ => false

/-- A parsed record is well shaped when it is a JSON object whose `message`
field, when present, is an object whose `content` field, when present, is
well shaped — the shape the log-format interface prescribes. -/
def dataOkB (data : JValue) : Bool :=
  match data with
  | .obj fields =>
    match dictGet fields (str2l "message") with
    | none => true
    | some (.obj ms) =>
      match dictGet ms (str2l "content") with
      | none => true
      | some c => contentOkB c
    | some _ => false
  | _ => false

/-- A raw line is well shaped when, if it parses as JSON at all, the parsed
value is a well-shaped record. -/
def wellShapedLine (line : Str) : Bool :=
  match json_loads (pyStrip line) with
  | none => true
  | some v => dataOkB v

/-! ## Lemmas: the extractor agrees with the spec's wording -/

/-- On a well-shaped block, the source's block extraction and the spec's
block extraction agree: both skip, or both pick the same string. -/
lemma blockTextPart_spec (b : JValue) (h : blockOkB b = true) :
    (blockTextPart b = none ∧ specTextOf b = none) ∨
    (∃ s, blockTextPart b = some (.str s) ∧ specTextOf b = some s) := by
  cases b with
  | obj fields =>
    simp only [blockOkB] at h
    simp only [blockTextPart, specTextOf]
    cases hty : dictGet fields (str2l "type") with
    | none => exact Or.inl ⟨rfl, rfl⟩
    | some tv =>
      cases tv with
      | str t =>
        rw [hty] at h
        by_cases ht : t = str2l "text"
        · subst ht
          cases htx : dictGet fields (str2l "text") with
          | none =>
            refine Or.inr ⟨[], ?_, ?_⟩ <;> simp [dictGetD, htx, jvalToStrField]
          | some tx =>
            rw [htx] at h
            cases tx with
            | str s =>
              refine Or.inr ⟨s, ?_, ?_⟩ <;> simp [dictGetD, htx, jvalToStrField]
            | null => simp at h
            | bool b => simp at h
            | num n => simp at h
            | arr es => simp at h
            | obj fs => simp at h
        · refine Or.inl ⟨?_, ?_⟩ <;> simp [ht]
      | null => exact Or.inl ⟨rfl, rfl⟩
      | bool b => exact Or.inl ⟨rfl, rfl⟩
      | num n => exact Or.inl ⟨rfl, rfl⟩
      | arr es => exact Or.inl ⟨rfl, rfl⟩
      | obj fs => exact Or.inl ⟨rfl, rfl⟩
  | null => exact Or.inl ⟨rfl, rfl⟩
  | bool b => exact Or.inl ⟨rfl, rfl⟩
  | num n => exact Or.inl ⟨rfl, rfl⟩
  | str s => exact Or.inl ⟨rfl, rfl⟩
  | arr es => exact Or.inl ⟨rfl, rfl⟩

/-- On well-shaped blocks, the source's collected parts are exactly the
spec's collected strings (wrapped back into JSON string values). -/
lemma filterMap_blocks_spec (blocks : List JValue) (h : blocks.all blockOkB = true) :
    blocks.filterMap blockTextPart = (blocks.filterMap specTextOf).map JValue.str := by
  induction blocks with
  | nil => rfl
  | cons b bs ih =>
    rw [List.all_cons, Bool.and_eq_true] at h
    rcases blockTextPart_spec b h.1 with ⟨h1, h2⟩ | ⟨s, h1, h2⟩ <;>
      simp [List.filterMap_cons, h1, h2, ih h.2]

/-- Every JSON string value satisfies the string test. -/
lemma all_isStrVal_map_str (l : List Str) : (l.map JValue.str).all isStrVal = true := by
  induction l with
  | nil => rfl
  | cons s t ih => simp [isStrVal, ih]

/-- Payload extraction undoes string wrapping. -/
lemma map_strPayload_map_str (l : List Str) : (l.map JValue.str).map strPayload = l := by
  induction l with
  | nil => rfl
  | cons s t ih => simpa [strPayload] using ih

/-- Joining a list of string values never raises and yields the
newline-joined payloads. -/
lemma joinParts_map_str (l : List Str) :
    joinParts (l.map JValue.str) = .ok (List.intercalate (str2l "\n") l) := by
  simp only [joinParts]
  rw [if_pos (all_isStrVal_map_str l), map_strPayload_map_str]

/-- On a well-shaped block list, `extract_text_content`'s join step
succeeds and computes exactly the spec's newline-joined text blocks. -/
lemma joinParts_filterMap (blocks : List JValue) (h : blocks.all blockOkB = true) :
    joinParts (blocks.filterMap blockTextPart) = .ok (specJoinTextBlocks blocks) := by
  rw [filterMap_blocks_spec blocks h, joinParts_map_str]; rfl

/-- The empty document is not valid JSON. -/
lemma json_loads_nil : json_loads [] = none := rfl

/-- Stripping the empty string. -/
lemma pyStrip_nil : pyStrip [] = [] := rfl

/-- Lookup in the empty dict. -/
lemma dictGet_nil (k : Str) : dictGet [] k = none := rfl

/-- C2 (amended): for every well-shaped record processed by the extractor
— the line, when it parses as JSON, is an object whose `message` field
(when present) is an object whose `content` (when present) is a string or
a list of blocks carrying string text — the record yields no item exactly
under the claim's skip conditions (invalid JSON, type not `user` or
`assistant`, or extracted text empty/whitespace-only), and otherwise yields
exactly one item whose content is the body verbatim (string body) or the
newline-joined text blocks (list body). -/
theorem extractor_C2_amended (line : Str) (h : wellShapedLine line = true) :
    (skipCondB line = true → processLine line = .ok none) ∧
    (skipCondB line = false →
      ∃ data m, json_loads (pyStrip line) = some data ∧
        processLine line = .ok (some m) ∧ m.content = specContentOfData data) := by
  have main :
      (skipCondB line = true ∧ processLine line = .ok none) ∨
      (skipCondB line = false ∧
        ∃ data m, json_loads (pyStrip line) = some data ∧
          processLine line = .ok (some m) ∧ m.content = specContentOfData data) := by
    unfold wellShapedLine at h
    by_cases hl : pyStrip line = []
    · left
      refine ⟨?_, ?_⟩
      · simp [skipCondB, hl, json_loads_nil]
      · simp [processLine, parse_jsonl_line, hl]
    · cases hj : json_loads (pyStrip line) with
      | none =>
        left
        refine ⟨?_, ?_⟩
        · simp [skipCondB, hj]
        · simp [processLine, parse_jsonl_line, hl, hj]
      | some data =>
        rw [hj] at h
        cases data with
        | null => simp [dataOkB] at h
        | bool b => simp [dataOkB] at h
        | num n => simp [dataOkB] at h
        | str s => simp [dataOkB] at h
        | arr es => simp [dataOkB] at h
        | obj fields =>
          cases hgood : isUserOrAssistant ((dictGet fields (str2l "type")).getD (JValue.str [])) with
          | false =>
            left
            refine ⟨?_, ?_⟩
            · simp [skipCondB, hj, typeGoodB, dictGetD, hgood]
            · simp [processLine, parse_jsonl_line, hl, hj, pyGet, dictGetD, hgood]
          | true =>
            cases hm : dictGet fields (str2l "message") with
            | none =>
              left
              refine ⟨?_, ?_⟩
              · simp [skipCondB, hj, typeGoodB, dictGetD, hgood, specContentOfData,
                      specBodyOf, hm, dictGet_nil, pyStrip_nil]
              · simp [processLine, parse_jsonl_line, hl, hj, pyGet, dictGetD, hgood, hm,
                      dictGet_nil, extract_text_content, pyStrip_nil]
            | some mv =>
              cases mv with
              | null => simp [dataOkB, hm] at h
              | bool b => simp [dataOkB, hm] at h
              | num n => simp [dataOkB, hm] at h
              | str s => simp [dataOkB, hm] at h
              | arr es => simp [dataOkB, hm] at h
              | obj ms =>
                cases hc : dictGet ms (str2l "content") with
                | none =>
                  left
                  refine ⟨?_, ?_⟩
                  · simp [skipCondB, hj, typeGoodB, dictGetD, hgood, specContentOfData,
                          specBodyOf, hm, hc, pyStrip_nil]
                  · simp [processLine, parse_jsonl_line, hl, hj, pyGet, dictGetD, hgood, hm,
                          hc, extract_text_content, pyStrip_nil]
                | some c =>
                  have hcok : contentOkB c = true := by
                    simp [dataOkB, hm, hc] at h
                    exact h
                  cases c with
                  | null => simp [contentOkB] at hcok
                  | bool b => simp [contentOkB] at hcok
                  | num n => simp [contentOkB] at hcok
                  | obj fs => simp [contentOkB] at hcok
                  | str s =>
                    by_cases hs : pyStrip s = []
                    · left
                      refine ⟨?_, ?_⟩
                      · simp [skipCondB, hj, typeGoodB, dictGetD, hgood, specContentOfData,
                              specBodyOf, hm, hc, hs]
                      · simp [processLine, parse_jsonl_line, hl, hj, pyGet, dictGetD, hgood,
                              hm, hc, extract_text_content, hs]
                    · right
                      refine ⟨?_, ?_⟩
                      · simp [skipCondB, hj, typeGoodB, dictGetD, hgood, specContentOfData,
                              specBodyOf, hm, hc, hs]
                      · refine ⟨.obj fields, mkPreMsg fields s, rfl, ?_, ?_⟩
                        · simp [processLine, parse_jsonl_line, hl, hj, pyGet, dictGetD, hgood,
                                hm, hc, extract_text_content, hs]
                        · simp [mkPreMsg, specContentOfData, specBodyOf, dictGetD, hm, hc]
                  | arr blocks =>
                    have hall : blocks.all blockOkB = true := by
                      simpa [contentOkB] using hcok
                    have hjoin := joinParts_filterMap blocks hall
                    by_cases hs : pyStrip (specJoinTextBlocks blocks) = []
                    · left
                      refine ⟨?_, ?_⟩
                      · simp [skipCondB, hj, typeGoodB, dictGetD, hgood, specContentOfData,
                              specBodyOf, hm, hc, hs]
                      · simp [processLine, parse_jsonl_line, hl, hj, pyGet, dictGetD, hgood,
                              hm, hc, extract_text_content, hjoin, hs]
                    · right
                      refine ⟨?_, ?_⟩
                      · simp [skipCondB, hj, typeGoodB, dictGetD, hgood, specContentOfData,
                              specBodyOf, hm, hc, hs]
                      · refine ⟨.obj fields, mkPreMsg fields (specJoinTextBlocks blocks), rfl, ?_, ?_⟩
                        · simp [processLine, parse_jsonl_line, hl, hj, pyGet, dictGetD, hgood,
                                hm, hc, extract_text_content, hjoin, hs]
                        · simp [mkPreMsg, specContentOfData, specBodyOf, dictGetD, hm, hc]
  rcases main with ⟨h1, h2⟩ | ⟨h1, h2⟩
  · exact ⟨fun _ => h2, fun hf => absurd h1 (by rw [hf]; exact Bool.false_ne_true)⟩
  · exact ⟨fun ht => absurd ht (by rw [h1]; exact Bool.false_ne_true), fun _ => h2⟩

/-! ## Concrete log fixtures

Three newline-terminated ingestible JSONL records, exactly the shape the
log-file interface prescribes (braces written with character escapes). -/

/-- A user record: `{"type":"user","message":{"content":"hi"}}` + newline. -/
def jlineA : Str := str2l "\x7b\"type\":\"user\",\"message\":\x7b\"content\":\"hi\"\x7d\x7d\n"

/-- A user record: `{"type":"user","message":{"content":"yo"}}` + newline. -/
def jlineB : Str := str2l "\x7b\"type\":\"user\",\"message\":\x7b\"content\":\"yo\"\x7d\x7d\n"

/-- An assistant record whose content is one `text` block reading `"zz"`,
newline-terminated. -/
def jlineC : Str :=
  str2l "\x7b\"type\":\"assistant\",\"message\":\x7b\"content\":[\x7b\"type\":\"text\",\"text\":\"zz\"\x7d]\x7d\x7d\n"

/-- A well-shaped assistant record mixing a `thinking` block with two
`text` blocks (`"A"` and `"B"`), no trailing newline. -/
def wLine : Str :=
  str2l "\x7b\"type\":\"assistant\",\"message\":\x7b\"content\":[\x7b\"type\":\"thinking\",\"thinking\":\"m\"\x7d,\x7b\"type\":\"text\",\"text\":\"A\"\x7d,\x7b\"type\":\"text\",\"text\":\"B\"\x7d]\x7d\x7d"

/-! ## Claim C1 — record-boundary splits -/

/-- C1 (evaluation of the failing input): a first run over the
newline-terminated file `jlineA` yields its one record and ends at
offset `jlineA.length` = end-of-file; after appending the single
ingestible line `jlineB`, a full run from offset 0 yields both records,
but the resumed run from the previously recorded end-of-file offset
yields **no** records — the unconditional `readline()` discard after
seeking swallows the entire appended record, so the two-run union
misses `jlineB`'s record and the "exactly 1 new item" scenario produces
0 items. -/
theorem iter_C1_boundary_eval :
    iter_new_messages (str2l "f") jlineA 0 =
      .ok [⟨[], str2l "user", str2l "hi", [], [], str2l "f", 1, 0⟩] ∧
    iter_new_messages (str2l "f") (jlineA ++ jlineB) 0 =
      .ok [⟨[], str2l "user", str2l "hi", [], [], str2l "f", 1, 0⟩,
           ⟨[], str2l "user", str2l "yo", [], [], str2l "f", 2, jlineA.length⟩] ∧
    iter_new_messages (str2l "f") (jlineA ++ jlineB) jlineA.length = .ok [] :=
  ⟨rfl, rfl, rfl⟩

/-! ## Claim C7 — line numbering across resumes -/

/-- C7 (evaluation of the failing input): over the three-record file, a
full run reports physical line numbers 1, 2, 3; resuming from the clean
record boundary `jlineA.length` both skips the record on physical line 2
and reports the record on physical line 3 (the one starting at byte
offset `(jlineA ++ jlineB).length`) with line number **2**. -/
theorem iter_C7_lineNumber_eval :
    iter_new_messages (str2l "f") (jlineA ++ jlineB ++ jlineC) 0 =
      .ok [⟨[], str2l "user", str2l "hi", [], [], str2l "f", 1, 0⟩,
           ⟨[], str2l "user", str2l "yo", [], [], str2l "f", 2, jlineA.length⟩,
           ⟨[], str2l "assistant", str2l "zz", [], [], str2l "f", 3, (jlineA ++ jlineB).length⟩] ∧
    iter_new_messages (str2l "f") (jlineA ++ jlineB ++ jlineC) jlineA.length =
      .ok [⟨[], str2l "assistant", str2l "zz", [], [], str2l "f", 2, (jlineA ++ jlineB).length⟩] :=
  ⟨rfl, rfl⟩

/-! ## Claim C2 — the extraction policy -/

/-- C2 (counterexample): the line `5` is valid JSON whose declared type is
not `user`/`assistant`, so the claim demands it yield no item with the
scan continuing; the code instead raises `AttributeError` (`.get` on a
non-dict), aborting the surrounding scan even though an ingestible record
follows. -/
theorem extractor_C2_cex :
    json_loads (pyStrip (str2l "5")) = some (.num 5) ∧
    processLine (str2l "5") = .error (str2l "AttributeError") ∧
    iter_new_messages (str2l "f") (str2l "5\n" ++ jlineA) 0 =
      .error (str2l "AttributeError") :=
  ⟨rfl, rfl, rfl⟩

/-- C2 (witness): a well-shaped assistant record mixing `thinking` and
`text` blocks is not skipped, and the extractor yields exactly one item
whose content is the spec's newline-joined text blocks (`"A\nB"`). -/
theorem extractor_C2_witness :
    wellShapedLine wLine = true ∧
    skipCondB wLine = false ∧
    specContentOfData ((json_loads (pyStrip wLine)).getD .null) = str2l "A\nB" ∧
    (∃ data m, json_loads (pyStrip wLine) = some data ∧
      processLine wLine = .ok (some m) ∧ m.content = specContentOfData data) :=
  ⟨by decide, by decide, by decide,
   (extractor_C2_amended wLine (by decide)).2 (by decide)⟩

/-! ## Claims C3–C5 — the vector store -/

/-- A `filterMap` keeping pointwise less becomes a sublist. -/
lemma filterMap_sublist {α β : Type _} (l : List α) (f g : α → Option β)
    (h : ∀ a b, f a = some b → g a = some b) :
    (l.filterMap f).Sublist (l.filterMap g) := by
  induction l with
  | nil => simp
  | cons a t ih =>
    cases hf : f a with
    | none =>
      cases hg : g a with
      | none => simpa [List.filterMap_cons, hf, hg] using ih
      | some b =>
        simp only [List.filterMap_cons, hf, hg]
        exact ih.cons b
    | some b =>
      have hg := h a b hf
      simp only [List.filterMap_cons, hf, hg]
      exact ih.cons₂ b

/-- C3: every returned result's similarity is `1 -` the backend distance of
its candidate and clears the threshold; raising the threshold (same query,
same limit) returns a sublist, hence no more results. -/
theorem search_C3_threshold (embed1 : Str → List ℚ)
    (knn : List ℚ → List Row → Nat → List (ℚ × Row)) (store : SqliteStore)
    (query : Str) (limit : Nat) (t t' : ℚ) (h : t ≤ t') :
    (∀ r ∈ search embed1 knn store query limit t, t ≤ r.score) ∧
    (search embed1 knn store query limit t').Sublist (search embed1 knn store query limit t) ∧
    (search embed1 knn store query limit t').length ≤
      (search embed1 knn store query limit t).length ∧
    (∀ rows, store = some rows →
      ∀ r ∈ search embed1 knn store query limit t,
        ∃ dr ∈ knn (embed1 query) rows limit,
          r = mkResult dr.2 (1 - dr.1) ∧ r.score = 1 - dr.1) := by
  have hsub : (search embed1 knn store query limit t').Sublist
      (search embed1 knn store query limit t) := by
    cases store with
    | none => simp [search]
    | some rows =>
      simp only [search]
      apply filterMap_sublist
      intro dr r hr
      by_cases h1 : 1 - dr.1 < t'
      · rw [if_pos h1] at hr; cases hr
      · rw [if_neg h1] at hr
        have h2 : ¬1 - dr.1 < t := fun hlt => h1 (lt_of_lt_of_le hlt h)
        rw [if_neg h2]; exact hr
  refine ⟨?_, hsub, hsub.length_le, ?_⟩
  · intro r hr
    cases store with
    | none => simp [search] at hr
    | some rows =>
      simp only [search] at hr
      rcases List.mem_filterMap.1 hr with ⟨dr, _, hsome⟩
      by_cases hlt : 1 - dr.1 < t
      · rw [if_pos hlt] at hsome; cases hsome
      · rw [if_neg hlt] at hsome
        cases hsome
        exact le_of_not_lt hlt
  · intro rows hrows r hr
    subst hrows
    simp only [search] at hr
    rcases List.mem_filterMap.1 hr with ⟨dr, hdr, hsome⟩
    by_cases hlt : 1 - dr.1 < t
    · rw [if_pos hlt] at hsome; cases hsome
    · rw [if_neg hlt] at hsome
      cases hsome
      exact ⟨dr, hdr, rfl, rfl⟩

/-- C4: a never-created or dropped collection is a valid empty state —
`search` returns `[]` rather than raising, `stats` reports count 0 with the
not-found status, and both hold after `drop`. -/
theorem search_C4_missing (embed1 : Str → List ℚ)
    (knn : List ℚ → List Row → Nat → List (ℚ × Row)) (query : Str) (limit : Nat)
    (t : ℚ) (store : SqliteStore) :
    search embed1 knn none query limit t = [] ∧
    get_collection_stats none = (0, str2l "not_found") ∧
    get_collection_stats (drop_collection store) = (0, str2l "not_found") ∧
    search embed1 knn (drop_collection store) query limit t = [] :=
  ⟨rfl, rfl, rfl, rfl⟩

/-- C5: indexing an empty list returns 0 touching neither the embedding
backend nor the store (and `embed_batch` on an empty input is `[]` with no
backend call); a non-empty list is embedded in one batch — the result
depends on the backend only through that single batch call — a length
mismatch fails loudly with `ValueError`, and otherwise exactly the number
of input items is returned. -/
theorem index_C5_batch (me me' : List Str → List (List ℚ)) (store : SqliteStore)
    (msgs : List Msg) :
    index_messages me store [] = .ok (store, 0) ∧
    embed_batch me [] = [] ∧
    index_messages me store [] = index_messages me' store [] ∧
    (me (msgs.map fun m => embedText m.content) = me' (msgs.map fun m => embedText m.content) →
      index_messages me store msgs = index_messages me' store msgs) ∧
    (msgs ≠ [] → (me (msgs.map fun m => embedText m.content)).length ≠ msgs.length →
      index_messages me store msgs = .error (str2l "ValueError")) ∧
    (msgs ≠ [] → (me (msgs.map fun m => embedText m.content)).length = msgs.length →
      index_messages me store msgs =
        .ok (some ((ensure_collection store).getD [] ++
          List.zipWith mkRow msgs (me (msgs.map fun m => embedText m.content))), msgs.length)) := by
  refine ⟨rfl, rfl, rfl, ?_, ?_, ?_⟩
  · intro he
    by_cases hm : msgs = []
    · subst hm; rfl
    · simp only [index_messages, if_neg hm]
      have htexts : msgs.map (fun m => embedText m.content) ≠ [] := by
        simpa [List.map_eq_nil_iff] using hm
      simp only [embed_batch, if_neg htexts]
      rw [he]
  · intro hm hne
    simp only [index_messages, if_neg hm]
    have htexts : msgs.map (fun m => embedText m.content) ≠ [] := by
      simpa [List.map_eq_nil_iff] using hm
    simp only [embed_batch, if_neg htexts]
    rw [if_neg hne]
  · intro hm hlen
    simp only [index_messages, if_neg hm]
    have htexts : msgs.map (fun m => embedText m.content) ≠ [] := by
      simpa [List.map_eq_nil_iff] using hm
    simp only [embed_batch, if_neg htexts]
    rw [if_pos hlen]

/-! ## Claim C6 — progress tracking -/

/-- Updating an association list makes the key's lookup hit the new value. -/
lemma assocGet_assocSet_self {ν : Type} (l : List (Str × ν)) (k : Str) (v : ν) :
    assocGet (assocSet l k v) k = some v := by
  induction l with
  | nil => simp [assocSet, assocGet]
  | cons kv t ih =>
    by_cases hk : kv.1 = k
    · simp [assocSet, hk, assocGet]
    · simp [assocSet, hk, assocGet, ih]

/-- Loading right after saving returns the saved state. -/
lemma sm_load_sm_save (disk : StateDisk) (p : Str) (st : ProjectState) :
    sm_load (sm_save disk p st) p = st := by
  simp [sm_load, sm_save, assocGet_assocSet_self]

/-- C6: an untracked file's offset reads as 0; `update_file_state`
overwrites the stored byte offset with exactly the new offset and *adds*
the new count to the stored running total (never resetting it). -/
theorem state_C6_update (disk : StateDisk) (p f : Str) (off c : Nat) (now : Str) :
    (assocGet (sm_load disk p).files f = none → get_file_offset disk p f = 0) ∧
    get_file_offset (update_file_state disk p f off c now) p f = off ∧
    get_indexed_count (update_file_state disk p f off c now) p f =
      get_indexed_count disk p f + c := by
  refine ⟨?_, ?_, ?_⟩
  · intro h
    simp [get_file_offset, h]
  · simp [update_file_state, get_file_offset, sm_load_sm_save, assocGet_assocSet_self]
  · cases hin : assocGet (sm_load disk p).files f with
    | none =>
      simp [update_file_state, get_indexed_count, sm_load_sm_save,
            assocGet_assocSet_self, hin]
    | some fs =>
      simp [update_file_state, get_indexed_count, sm_load_sm_save,
            assocGet_assocSet_self, hin]

/-- C6 (witness): on an empty state directory, an untracked file reads
offset 0, and one update to offset 5 with 2 newly indexed records stores
offset exactly 5 and running count `0 + 2`. -/
theorem state_C6_witness :
    get_file_offset [] (str2l "p") (str2l "f") = 0 ∧
    get_file_offset (update_file_state [] (str2l "p") (str2l "f") 5 2 [])
      (str2l "p") (str2l "f") = 5 ∧
    get_indexed_count (update_file_state [] (str2l "p") (str2l "f") 5 2 [])
      (str2l "p") (str2l "f") =
      get_indexed_count [] (str2l "p") (str2l "f") + 2 :=
  ⟨(state_C6_update [] (str2l "p") (str2l "f") 5 2 []).1 (by decide),
   (state_C6_update [] (str2l "p") (str2l "f") 5 2 []).2.1,
   (state_C6_update [] (str2l "p") (str2l "f") 5 2 []).2.2⟩

/-! ## Claim C8 — snippet and embedding truncation -/

/-- A content string of length 303 whose last three characters are the
ellipsis: its snippet is 303 characters long (not ≤ 300) and coincides
with the embedded text. -/
def c8content : Str := List.replicate 300 'a' ++ str2l "..."

/-- C8 (counterexample): for this 303-character content the stored snippet
is 303 characters — longer than the claimed 300 — and the embedded string
*equals* the stored snippet although the content is longer than 300. -/
theorem snippet_C8_cex :
    300 < c8content.length ∧
    ¬(truncSnippet c8content).length ≤ 300 ∧
    embedText c8content = truncSnippet c8content := by
  refine ⟨by decide, by decide, by decide⟩

/-- C8 (amended): the snippet is the first 300 characters, ellipsis-suffixed
exactly when the content exceeds 300 characters (hence up to 303 characters
long, not 300); the embedded text is the independently computed first 2000
characters; and for long content the two differ unless the content happens
to equal its own 300-character prefix followed by the ellipsis. -/
theorem snippet_C8_amended (content : Str) (m : Msg) (e : List ℚ)
    (h : 300 < content.length) :
    truncSnippet content = content.take 300 ++ str2l "..." ∧
    (truncSnippet content).length = 303 ∧
    embedText content = content.take 2000 ∧
    (mkRow m e).snippet = truncSnippet m.content ∧
    (∀ c : Str, c.length ≤ 300 → truncSnippet c = c) ∧
    (content ≠ content.take 300 ++ str2l "..." →
      embedText content ≠ truncSnippet content) := by
  have h1 : truncSnippet content = content.take 300 ++ str2l "..." := by
    simp [truncSnippet, if_pos h]
  refine ⟨h1, ?_, rfl, rfl, ?_, ?_⟩
  · rw [h1]
    simp [List.length_append, List.length_take, str2l]
    omega
  · intro c hc
    simp [truncSnippet, Nat.not_lt.2 hc, List.take_of_length_le hc]
  · intro hne heq
    have hl := congrArg List.length heq
    rw [h1] at hl
    simp [embedText, List.length_take, List.length_append, str2l] at hl
    rw [Nat.min_def] at hl
    have hlen : content.length = 303 := by
      split_ifs at hl <;> omega
    have htk : content.take 2000 = content := List.take_of_length_le (by omega)
    rw [embedText, htk] at heq
    rw [h1] at heq
    exact hne heq

/-- C8 (witness): a 301-character content exercises the amended claim. -/
theorem snippet_C8_witness :
    truncSnippet (List.replicate 301 'a') =
      (List.replicate 301 'a').take 300 ++ str2l "..." ∧
    (truncSnippet (List.replicate 301 'a')).length = 303 :=
  ⟨(snippet_C8_amended (List.replicate 301 'a') ⟨[], [], [], [], [], [], 0, 0⟩ []
      (by decide)).1,
   (snippet_C8_amended (List.replicate 301 'a') ⟨[], [], [], [], [], [], 0, 0⟩ []
      (by decide)).2.1⟩

/-! ## Claim C9 — the two storage backends -/

/-- No identifier in the batch collides with a stored row or with another
batch member: the regime in which upsert-by-identifier cannot differ from
plain insertion. -/
def freshUuids (rows : List Row) (msgs : List Msg) : Prop :=
  (msgs.map Msg.uuid).Nodup ∧ ∀ m ∈ msgs, ∀ r ∈ rows, r.uuid ≠ m.uuid

/-- Upserting a point whose identifier is absent appends it. -/
lemma upsertRow_fresh (rows : List Row) (r : Row) (h : ∀ x ∈ rows, x.uuid ≠ r.uuid) :
    upsertRow rows r = rows ++ [r] := by
  have hany : rows.any (fun x => x.uuid = r.uuid) = false := by
    rw [List.any_eq_false]
    intro x hx
    simpa using h x hx
  simp [upsertRow, hany]

/-- Folding upserts of identifier-fresh points is plain appending. -/
lemma foldl_upsert_fresh (pts : List Row) : ∀ (rows : List Row),
    (∀ p ∈ pts, ∀ x ∈ rows, x.uuid ≠ p.uuid) → (pts.map Row.uuid).Nodup →
    pts.foldl upsertRow rows = rows ++ pts := by
  induction pts with
  | nil => intro rows _ _; simp
  | cons p t ih =>
    intro rows hfresh hnd
    have h1 : upsertRow rows p = rows ++ [p] :=
      upsertRow_fresh rows p (fun x hx => hfresh p (by simp) x hx)
    rw [List.foldl_cons, h1, ih (rows ++ [p]) ?_ ?_]
    · simp
    · intro q hq x hx
      rcases List.mem_append.1 hx with hx | hx
      · exact hfresh q (by simp [hq]) x hx
      · simp at hx
        subst hx
        rw [List.map_cons, List.nodup_cons] at hnd
        intro hequ
        exact hnd.1 (hequ ▸ List.mem_map_of_mem Row.uuid hq)
    · rw [List.map_cons, List.nodup_cons] at hnd
      exact hnd.2

/-- The identifiers of the rows built from a batch are the batch's
identifiers (same-length embeddings). -/
lemma map_uuid_zipWith (msgs : List Msg) : ∀ (embs : List (List ℚ)),
    embs.length = msgs.length →
    (List.zipWith mkRow msgs embs).map Row.uuid = msgs.map Msg.uuid := by
  induction msgs with
  | nil => intro embs _; simp
  | cons m t ih =>
    intro embs h
    cases embs with
    | nil => simp at h
    | cons e es =>
      simp only [List.length_cons] at h
      simp [mkRow, ih es (by omega)]

/-- C9 (amended): the two backends expose the identical contract and agree
operation-by-operation — `ensure`, `drop` and `search` coincide outright,
`stats` agrees on the count with only the backend-specific status strings
differing — and `index` coincides as long as no already-stored or repeated
identifier is re-ingested; duplicate identifiers are the one behavioural
gap (the networked store deduplicates, the embedded store accumulates). -/
theorem backends_C9_amended (me : List Str → List (List ℚ)) (embed1 : Str → List ℚ)
    (knn : List ℚ → List Row → Nat → List (ℚ × Row)) (store : Option (List Row))
    (msgs : List Msg) (query : Str) (limit : Nat) (t : ℚ) :
    qdrant_ensure_collection store = ensure_collection store ∧
    qdrant_drop_collection store = drop_collection store ∧
    qdrant_search embed1 knn store query limit t = search embed1 knn store query limit t ∧
    (qdrant_get_collection_stats store).1 = (get_collection_stats store).1 ∧
    ((qdrant_get_collection_stats store).2 = str2l "not_found" ↔
      (get_collection_stats store).2 = str2l "not_found") ∧
    (freshUuids (store.getD []) msgs →
      qdrant_index_messages me store msgs = index_messages me store msgs) := by
  refine ⟨?_, rfl, ?_, ?_, ?_, ?_⟩
  · cases store <;> rfl
  · cases store <;> rfl
  · cases store <;> rfl
  · cases store with
    | none => exact Iff.rfl
    | some rows =>
      have hg : (qdrant_get_collection_stats (some rows)).2 = str2l "green" := rfl
      have ho : (get_collection_stats (some rows)).2 = str2l "ok" := rfl
      rw [hg, ho]
      exact ⟨fun h => absurd h (by decide), fun h => absurd h (by decide)⟩
  · rintro ⟨hnd, hfr⟩
    by_cases hm : msgs = []
    · subst hm; rfl
    · simp only [qdrant_index_messages, index_messages, if_neg hm]
      have htexts : msgs.map (fun m => embedText m.content) ≠ [] := by
        simpa [List.map_eq_nil_iff] using hm
      simp only [embed_batch, if_neg htexts]
      by_cases hlen : (me (msgs.map fun m => embedText m.content)).length = msgs.length
      · rw [if_pos hlen, if_pos hlen]
        have hens : qdrant_ensure_collection store = ensure_collection store := by
          cases store <;> rfl
        have hgd : (ensure_collection store).getD [] = store.getD [] := by
          cases store <;> rfl
        rw [hens, hgd]
        have hmap := map_uuid_zipWith msgs (me (msgs.map fun m => embedText m.content)) hlen
        have h1 : ∀ p ∈ List.zipWith mkRow msgs (me (msgs.map fun m => embedText m.content)),
            ∀ x ∈ store.getD [], x.uuid ≠ p.uuid := by
          intro p hp x hx
          have hpm : p.uuid ∈ (List.zipWith mkRow msgs
              (me (msgs.map fun m => embedText m.content))).map Row.uuid :=
            List.mem_map_of_mem Row.uuid hp
          rw [hmap] at hpm
          rcases List.mem_map.1 hpm with ⟨m, hmmem, hmu⟩
          rw [← hmu]
          exact hfr m hmmem x hx
        rw [foldl_upsert_fresh _ _ h1 (by rw [hmap]; exact hnd)]
      · rw [if_neg hlen, if_neg hlen]

/-- The embedding backend used in the concrete backend scenarios: one
empty vector per text. -/
def me0 : List Str → List (List ℚ) := fun ts => ts.map (fun _ => [])

/-- A concrete ingestible message carrying identifier `"u"`. -/
def m0 : Msg := ⟨str2l "u", str2l "user", str2l "hi", [], [], str2l "f", 1, 0⟩

/-- The row built for `m0`. -/
def r0 : Row := mkRow m0 []

/-- C9 (counterexample): re-ingesting the identifier `"u"` makes the two
backends diverge beyond status strings — the embedded store accumulates a
duplicate row (count 2) while the networked store overwrites by identifier
(count 1). -/
theorem backends_C9_cex :
    index_messages me0 none [m0] = .ok (some [r0], 1) ∧
    index_messages me0 (some [r0]) [m0] = .ok (some [r0, r0], 1) ∧
    qdrant_index_messages me0 none [m0] = .ok (some [r0], 1) ∧
    qdrant_index_messages me0 (some [r0]) [m0] = .ok (some [r0], 1) ∧
    (get_collection_stats (some [r0, r0])).1 = 2 ∧
    (qdrant_get_collection_stats (some [r0])).1 = 1 :=
  ⟨rfl, rfl, rfl, rfl, rfl, rfl⟩

/-- C9 (witness): on a fresh identifier the two backends' `index` agree. -/
theorem backends_C9_witness :
    qdrant_index_messages me0 none [m0] = index_messages me0 none [m0] :=
  (backends_C9_amended me0 (fun _ => []) (fun _ _ _ => []) none [m0] [] 0 0).2.2.2.2.2
    ⟨by decide, by decide⟩

/-! ## Claim C10 — project-name sanitization is not injective -/

/-- C10 (counterexample): the claim's example triple does not share one
state directory — `"a_b"` sanitizes to the directory `a_b`, distinct from
the directory `a-b` shared by `"a/b"` and `"a-b"` (though all three do
share one collection name). -/
theorem naming_C10_cex :
    projectDirName (str2l "a_b") ≠ projectDirName (str2l "a-b") ∧
    projectDirName (str2l "a_b") ≠ projectDirName (str2l "a/b") ∧
    (sm_load [] (str2l "a_b")).collection_name =
      (sm_load [] (str2l "a-b")).collection_name :=
  ⟨by decide, by decide, by decide⟩

/-- C10 (amended): the distinct project names `"a/b"` and `"a-b"` are
mapped to the same collection name *and* the same state directory — so two
different projects silently share one vector collection and one state file
— and `"a_b"` shares their collection name too, though its state directory
differs. -/
theorem naming_C10_amended :
    str2l "a/b" ≠ str2l "a-b" ∧
    projectDirName (str2l "a/b") = projectDirName (str2l "a-b") ∧
    (sm_load [] (str2l "a/b")).collection_name =
      (sm_load [] (str2l "a-b")).collection_name ∧
    (sm_load [] (str2l "a_b")).collection_name =
      (sm_load [] (str2l "a/b")).collection_name ∧
    (∀ disk st, sm_save disk (str2l "a/b") st = sm_save disk (str2l "a-b") st) ∧
    (∀ disk, sm_load disk (str2l "a/b") = sm_load disk (str2l "a-b")) ∧
    projectDirName (str2l "a_b") ≠ projectDirName (str2l "a-b") := by
  have hdir : projectDirName (str2l "a/b") = projectDirName (str2l "a-b") := by decide
  have hcol : collectionName (str2l "a/b") = collectionName (str2l "a-b") := by decide
  refine ⟨by decide, hdir, by decide, by decide, ?_, ?_, by decide⟩
  · intro disk st
    simp [sm_save, hdir]
  · intro disk
    simp [sm_load, hdir, hcol]

/-! ## Remaining witnesses -/

/-- C3 (witness): with one stored row at distance 0, searching with
threshold 9/10 returns no more results than with threshold 1/10. -/
theorem search_C3_witness :
    ((1 : ℚ)/10 ≤ 9/10) ∧
    (search (fun _ => []) (fun _ rows _ => rows.map (fun r => ((0 : ℚ), r)))
        (some [⟨[], [], [], 0, [], [], [], []⟩]) [] 5 (9/10)).length ≤
      (search (fun _ => []) (fun _ rows _ => rows.map (fun r => ((0 : ℚ), r)))
        (some [⟨[], [], [], 0, [], [], [], []⟩]) [] 5 (1/10)).length :=
  ⟨by norm_num,
   (search_C3_threshold (fun _ => []) (fun _ rows _ => rows.map (fun r => ((0 : ℚ), r)))
      (some [⟨[], [], [], 0, [], [], [], []⟩]) [] 5 (1/10) (9/10) (by norm_num)).2.2.1⟩

/-- C5 (witness): an empty batch indexes as 0 with the store untouched; a
backend returning the wrong number of embeddings raises `ValueError`; a
matching backend indexes the single message and returns 1. -/
theorem index_C5_witness :
    index_messages me0 none [] = .ok (none, 0) ∧
    index_messages (fun _ => []) none [m0] = .error (str2l "ValueError") ∧
    index_messages me0 none [m0] =
      .ok (some ((ensure_collection none).getD [] ++
        List.zipWith mkRow [m0] (me0 ([m0].map fun m => embedText m.content))),
        [m0].length) :=
  ⟨(index_C5_batch me0 me0 none []).1,
   (index_C5_batch (fun _ => []) (fun _ => []) none [m0]).2.2.2.2.1
     (by decide) (by decide),
   (index_C5_batch me0 me0 none [m0]).2.2.2.2.2 (by decide) (by decide)⟩

end ClaudeReflections
